import Mathlib

set_option maxHeartbeats 1000000
set_option maxRecDepth 4000

/-!
Verification development for the B-Tree index file program in src/main.py.

The program is a persistent key-value index over a block file: a node codec
(BTreeNode.from_bytes / BTreeNode.to_bytes), a block store (class FileManager:
header, allocation, LRU cache) and the tree algorithms (class BTree: search,
traverse/collect, insert, insert_nonfull, split_child).

Modelling conventions, matching the source statement by statement:
- machine integers are Nat; the file stores 8-byte big-endian fields, so the
  codec works on lists of byte values (Nat below 256) of length 512;
- the backing file is a total function from block id to the byte list of that
  block; a block that was never written is the empty list (Python would raise
  a struct.error when unpacking it; no claim reads such a block);
- the Python object attribute holding the child list is named num_children in
  the constructor, is_leaf, to_bytes and search, but traverse, split_child and
  insert_nonfull read it as node.children, which raises AttributeError at run
  time.  The model uses one field, children, for the stored list, so the
  functions below execute the way the surrounding comments in the source say
  they were meant to; the AttributeError is recorded with the claims whose
  code paths hit it;
- line 250 of the source, self.bfile.root-id = bid, is not an assignable
  target (a SyntaxError in Python), and line 251 calls the nonexistent method
  syn_header; BTree.insert models reaching that point as an aborting error,
  with all mutations already performed (allocation, node write) retained;
- line 59 of the source calls struct.unpack with three arguments, which raises
  TypeError; FileManager.openFile models that branch as an error.
-/

/-! ## Constants (src/main.py lines 22-27) -/

def BLOCK_SIZE : Nat := 512

/-- The 8 ASCII bytes of b"4348PRJ3". -/
def MAGIC : List Nat := [52, 51, 52, 56, 80, 82, 74, 51]

def T : Nat := 10

def MAX_KEYS : Nat := 2 * T - 1

def MAX_CHILDREN : Nat := 2 * T

def CACHE_SIZE : Nat := 3

/-! ## 8-byte big-endian integers (struct format \x3eQ) -/

/-- The 8 bytes of an unsigned 64-bit integer, most significant first,
as written by struct.pack_into with format \x3eQ. -/
def be64 (n : Nat) : List Nat :=
  [n / 2 ^ 56 % 256, n / 2 ^ 48 % 256, n / 2 ^ 40 % 256, n / 2 ^ 32 % 256,
   n / 2 ^ 24 % 256, n / 2 ^ 16 % 256, n / 2 ^ 8 % 256, n % 256]

/-- Read an 8-byte big-endian integer from the front of a byte list, as
struct.unpack_from with format \x3eQ does.  Fewer than 8 bytes would be a
struct.error in Python; the model returns 0 there (no claim hits it). -/
def readBe64 : List Nat → Nat
  | b0 :: b1 :: b2 :: b3 :: b4 :: b5 :: b6 :: b7 :: _ =>
    ((((((b0 * 256 + b1) * 256 + b2) * 256 + b3) * 256 + b4) * 256 + b5) * 256 + b6) * 256 + b7
  | _ => 0

/-- The 8-byte slot at byte offset 8*i. -/
def readSlot (data : List Nat) (i : Nat) : Nat := readBe64 (data.drop (8 * i))

/-! ## BTreeNode (src/main.py lines 117-165) -/

/-- A tree node.  The source constructor stores the child list in the
attribute num_children; see the module comment for how the children naming
defect of the source is handled. -/
structure BTreeNode where
  block_id : Nat
  parent_id : Nat
  keys : List Nat
  values : List Nat
  children : List Nat
  deriving DecidableEq, Repr

/-- keys[i] if i is in range else 0: the padding expression of to_bytes. -/
def padSlots (m : Nat) (l : List Nat) : List Nat :=
  (List.range m).map (fun i => l.getD i 0)

/-- The 61 8-byte slots of the encoded node: header (block_id, parent_id,
num_keys), 19 key slots, 19 value slots, 20 child slots
(src/main.py lines 143-162). -/
def BTreeNode.toSlots (n : BTreeNode) : List Nat :=
  n.block_id :: n.parent_id :: n.keys.length ::
    (padSlots MAX_KEYS n.keys ++ (padSlots MAX_KEYS n.values ++ padSlots MAX_CHILDREN n.children))

/-- to_bytes: the 61 slots back to back (488 bytes) then zero padding to
BLOCK_SIZE = 512 bytes. -/
def BTreeNode.to_bytes (n : BTreeNode) : List Nat :=
  n.toSlots.flatMap be64 ++ List.replicate 24 0

/-- from_bytes (src/main.py lines 127-141): read the header, all 19 key and
value slots and all 20 child slots, then trim keys and values to nkeys and
children to nkeys+1 (the child trim is unconditional in the source, also for
leaves). -/
def BTreeNode.from_bytes (data : List Nat) : BTreeNode :=
  let nkeys := readSlot data 2
  { block_id := readSlot data 0
    parent_id := readSlot data 1
    keys := ((List.range MAX_KEYS).map (fun i => readSlot data (i + 3))).take nkeys
    values := ((List.range MAX_KEYS).map (fun i => readSlot data (i + 22))).take nkeys
    children := ((List.range MAX_CHILDREN).map (fun i => readSlot data (i + 41))).take (nkeys + 1) }

/-- is_leaf (src/main.py line 164): a node is a leaf iff its stored child
list is empty. -/
def BTreeNode.is_leaf (n : BTreeNode) : Bool := n.children.length == 0

/-! ## FileManager (src/main.py lines 32-110) -/

/-- The block store state: header fields held in memory, the backing file as
a total map from block id to that block, and the LRU cache as an ordered
association list (least recently used first, most recently used last, the
iteration order of the OrderedDict in the source). -/
structure FileManager where
  root_id : Nat
  next_block_id : Nat
  file : Nat → List Nat
  cache : List (Nat × BTreeNode)

/-- The header block: magic, root id, next block id, zero padding to 512
bytes (src/main.py lines 46-49 and 63-66). -/
def headerBytes (root next : Nat) : List Nat :=
  MAGIC ++ be64 root ++ be64 next ++ List.replicate (BLOCK_SIZE - 24) 0

/-- FileManager.open (src/main.py lines 40-60).  Create mode truncates the
file and writes a fresh header; the in-memory fields keep their constructor
values root_id = 0, next_block_id = 1.  Existing mode reads block 0 and
checks the magic; on mismatch it raises ValueError (line 58); on a match it
reaches line 59, struct.unpack with three arguments, which raises TypeError
(struct.unpack takes exactly two), so the root and next ids are never
loaded. -/
def FileManager.openFile (prev : Nat → List Nat) (create : Bool) :
    Except String FileManager :=
  if create then
    Except.ok ⟨0, 1, fun b => if b = 0 then headerBytes 0 1 else [], []⟩
  else
    if (prev 0).take 8 = MAGIC then
      Except.error "TypeError: unpack expected 2 arguments, got 3"
    else
      Except.error "Invalid index file format"

/-- The state right after FileManager.open(create=True). -/
def createIndex : FileManager :=
  ⟨0, 1, fun b => if b = 0 then headerBytes 0 1 else [], []⟩

/-- sync_header (src/main.py lines 62-69). -/
def FileManager.sync_header (st : FileManager) : FileManager :=
  { st with
    file := fun b => if b = 0 then headerBytes st.root_id st.next_block_id else st.file b }

/-- allocate_block (src/main.py lines 71-75): return the current next block
id, increment it, persist the header. -/
def FileManager.allocate_block (st : FileManager) : Nat × FileManager :=
  (st.next_block_id, FileManager.sync_header { st with next_block_id := st.next_block_id + 1 })

/-- read_node (src/main.py lines 77-93).  A hit pops the entry and reinserts
it at the most recently used end; a miss decodes the block from the file,
appends the entry, and drops the least recently used entry when the cache
is over capacity.  The pop by key is modelled as a filter; cache keys are
unique in every reachable state. -/
def FileManager.read_node (st : FileManager) (bid : Nat) : FileManager × BTreeNode :=
  match st.cache.find? (fun p => p.1 == bid) with
  | some p =>
    ({ st with cache := st.cache.filter (fun q => q.1 != bid) ++ [(bid, p.2)] }, p.2)
  | none =>
    let node := BTreeNode.from_bytes (st.file bid)
    let c := st.cache ++ [(bid, node)]
    ({ st with cache := if CACHE_SIZE < c.length then c.tail else c }, node)

/-- write_node (src/main.py lines 95-104): encode and write the block, flush,
then update the cache.  Assigning to an existing OrderedDict key replaces the
value in place (the entry keeps its position); a new key is appended at the
most recently used end, then the least recently used entry is dropped when
over capacity. -/
def FileManager.write_node (st : FileManager) (node : BTreeNode) : FileManager :=
  let f := fun b => if b = node.block_id then node.to_bytes else st.file b
  let c :=
    if st.cache.any (fun p => p.1 == node.block_id) then
      st.cache.map (fun p => if p.1 == node.block_id then (node.block_id, node) else p)
    else
      st.cache ++ [(node.block_id, node)]
  { st with file := f, cache := if CACHE_SIZE < c.length then c.tail else c }

/-! ## BTree (src/main.py lines 208-329) -/

/-- The index reached by the scan loop of search (src/main.py lines 218-219):
while i is in range and key is greater than keys[i], advance. -/
def scanIdx (key : Nat) : List Nat → Nat
  | [] => 0
  | k :: ks => if k < key then scanIdx key ks + 1 else 0

/-- search (src/main.py lines 212-225).  After the scan the source re-tests
key greater than keys[i], the same condition that just terminated the scan,
so the value branch is dead; a leaf answers not found and an internal node
descends into num_children[i].  The fuel argument bounds the recursion depth
and is a modelling artifact; every run below uses ample fuel. -/
def BTree.search (fuel : Nat) (st : FileManager) (bid key : Nat) :
    FileManager × Option Nat :=
  match fuel with
  | 0 => (st, none)
  | fuel + 1 =>
    if bid = 0 then (st, none)
    else
      let q := st.read_node bid
      let node := q.2
      let i := scanIdx key node.keys
      if i < node.keys.length ∧ node.keys.getD i 0 < key then (q.1, some (node.values.getD i 0))
      else if node.is_leaf then (q.1, none)
      else BTree.search fuel q.1 (node.children.getD i 0) key

/-- traverse (src/main.py lines 227-236): for each key index, visit the
child subtree below it (when the node is not a leaf), then the pair itself;
finally the last child subtree.  The source reads the child list through the
nonexistent attribute node.children here; see the module comment. -/
def BTree.traverse (fuel : Nat) (st : FileManager) (bid : Nat) :
    FileManager × List (Nat × Nat) :=
  match fuel with
  | 0 => (st, [])
  | fuel + 1 =>
    if bid = 0 then (st, [])
    else
      let q := st.read_node bid
      let node := q.2
      let w := (List.range node.keys.length).foldl
        (fun (acc : FileManager × List (Nat × Nat)) i =>
          let pre :=
            if node.is_leaf then (acc.1, [])
            else BTree.traverse fuel acc.1 (node.children.getD i 0)
          (pre.1, acc.2 ++ pre.2 ++ [(node.keys.getD i 0, node.values.getD i 0)]))
        (q.1, [])
      if node.is_leaf then w
      else
        let r := BTree.traverse fuel w.1 (node.children.getD node.keys.length 0)
        (r.1, w.2 ++ r.2)

/-- collect (src/main.py lines 238-241). -/
def BTree.collect (fuel : Nat) (st : FileManager) : FileManager × List (Nat × Nat) :=
  BTree.traverse fuel st st.root_id

/-- list.insert of Python: insert before position i, appending when i is at
or past the end. -/
def pyInsert {α : Type} (l : List α) (i : Nat) (x : α) : List α :=
  l.take i ++ x :: l.drop i

/-- The insertion position computed by the shift loops of insert_nonfull
(src/main.py lines 306-314 and 319-322): one past the last index whose key
is at most the new key, that is, the list length minus the longest suffix of
keys strictly greater than the new key. -/
def insPos (key : Nat) (l : List Nat) : Nat :=
  l.length - (l.reverse.takeWhile (fun k => key < k)).length

/-- split_child (src/main.py lines 269-301).  Faithful to the source
slicing: the new right node z receives the FIRST t keys and values
(z.keys = y.keys[:t], including the median that is also promoted), the left
node y keeps the first t-1, and the last t-1 keys and values of y are
dropped.  When y is internal, z takes y.children[t:], y keeps
y.children[:t], and every nonzero child moved to z is rewritten with its
parent_id set to z.  The median is inserted into the parent at position i,
the new block id at position i+1, and y, z, parent are written in that
order.  The source reads parent.children and y.children through the
nonexistent attribute name; see the module comment. -/
def BTree.split_child (st : FileManager) (parent : BTreeNode) (i : Nat) :
    FileManager × BTreeNode :=
  let q := st.read_node (parent.children.getD i 0)
  let y := q.2
  let r := q.1.allocate_block
  let z_bid := r.1
  let mid_key := y.keys.getD (T - 1) 0
  let mid_val := y.values.getD (T - 1) 0
  let z0 : BTreeNode := ⟨z_bid, parent.block_id, y.keys.take T, y.values.take T, []⟩
  let y1 := { y with keys := y.keys.take (T - 1), values := y.values.take (T - 1) }
  let s :=
    if y.is_leaf then (r.2, y1, z0)
    else
      let z1 := { z0 with children := y.children.drop T }
      let y2 := { y1 with children := y.children.take T }
      let st2 := z1.children.foldl
        (fun acc c =>
          if c ≠ 0 then
            let rc := FileManager.read_node acc c
            rc.1.write_node { rc.2 with parent_id := z_bid }
          else acc)
        r.2
      (st2, y2, z1)
  let parent2 :=
    { parent with
      keys := pyInsert parent.keys i mid_key
      values := pyInsert parent.values i mid_val
      children := pyInsert parent.children (i + 1) z_bid }
  let st3 := s.1.write_node s.2.1
  let st4 := st3.write_node s.2.2
  (st4.write_node parent2, parent2)

/-- insert_nonfull (src/main.py lines 303-329).  On a leaf, a blind
sorted-position insert of the pair with no duplicate check, then a write.
On an internal node, descend at the same position; a full child is split
first, stepping one slot right when the new key is greater than the
promoted key, then the (re-read) child is descended into. -/
def BTree.insert_nonfull (fuel : Nat) (st : FileManager) (node : BTreeNode)
    (key value : Nat) : FileManager :=
  match fuel with
  | 0 => st
  | fuel + 1 =>
    if node.is_leaf then
      let p := insPos key node.keys
      st.write_node
        { node with keys := pyInsert node.keys p key, values := pyInsert node.values p value }
    else
      let i := insPos key node.keys
      let q := st.read_node (node.children.getD i 0)
      if q.2.keys.length = MAX_KEYS then
        let r := BTree.split_child q.1 node i
        let i2 := if r.2.keys.getD i 0 < key then i + 1 else i
        let q2 := r.1.read_node (r.2.children.getD i2 0)
        BTree.insert_nonfull fuel q2.1 q2.2 key value
      else BTree.insert_nonfull fuel q.1 q.2 key value

/-- insert (src/main.py lines 243-267).  On an empty tree: allocate a block
(which persists the header with the old root id 0 and the bumped next id),
build the one-pair leaf, write it — and then line 250 assigns to
self.bfile.root-id, which is not an assignable target (SyntaxError), and
line 251 calls the nonexistent syn_header, so the root id is never updated;
the model returns the state reached so far together with the error.  On a
full root: allocate a new root holding the old root as its only child, split
child 0, move root_id, persist the header, then descend. -/
def BTree.insert (fuel : Nat) (st : FileManager) (key value : Nat) :
    FileManager × Option String :=
  if st.root_id = 0 then
    let r := st.allocate_block
    let root : BTreeNode := ⟨r.1, 0, [key], [value], []⟩
    (r.2.write_node root, some "insert line 250: cannot assign to expression self.bfile.root-id")
  else
    let q := st.read_node st.root_id
    let root := q.2
    if root.keys.length = MAX_KEYS then
      let r := q.1.allocate_block
      let new_root : BTreeNode := ⟨r.1, 0, [], [], [root.block_id]⟩
      let st2 := r.2.write_node { root with parent_id := r.1 }
      let s := BTree.split_child st2 new_root 0
      let st3 := FileManager.sync_header { s.1 with root_id := r.1 }
      (BTree.insert_nonfull fuel st3 s.2 key value, none)
    else (BTree.insert_nonfull fuel q.1 root key value, none)

/-! ## Concrete states used by individual claims -/

/-- A full leaf (19 keys) at block 1, child 0 of the parent below. -/
def c3_leaf : BTreeNode :=
  ⟨1, 2, [1, 2, 3, 4, 5, 6, 7, 8, 9, 10, 11, 12, 13, 14, 15, 16, 17, 18, 19],
    [10, 20, 30, 40, 50, 60, 70, 80, 90, 100, 110, 120, 130, 140, 150, 160, 170, 180, 190], []⟩

/-- A parent whose child slot 0 refers to the full leaf. -/
def c3_parent : BTreeNode := ⟨2, 0, [], [], [1]⟩

/-- A store holding the full leaf on disk and in cache (as it stands right
after the leaf was last written). -/
def c3_state : FileManager :=
  ⟨2, 3, fun b => if b = 0 then headerBytes 2 3 else if b = 1 then c3_leaf.to_bytes else [],
    [(1, c3_leaf)]⟩

/-- A one-pair leaf at block 1, the root of the index used for claim C7. -/
def c7_leaf : BTreeNode := ⟨1, 0, [5], [50], []⟩

/-- A one-leaf index: root block 1 holding the single pair (5, 50), the leaf
resident in cache as after its write. -/
def c7_state : FileManager :=
  ⟨1, 2, fun b => if b = 0 then headerBytes 1 2 else if b = 1 then c7_leaf.to_bytes else [],
    [(1, c7_leaf)]⟩

/-- The state after inserting key 5 a second time into the one-leaf index. -/
def c7_after : FileManager := (BTree.insert 10 c7_state 5 99).1

/-- An empty node with a given block id, for the cache scenarios. -/
def c9_node (i : Nat) : BTreeNode := ⟨i, 0, [], [], []⟩

/-- A store whose cache is full with blocks 1, 2, 3 (in that access order). -/
def c9_full : FileManager :=
  ⟨0, 5, fun _ => [], [(1, c9_node 1), (2, c9_node 2), (3, c9_node 3)]⟩

/-- A store with an empty cache whose file holds an encoded node at every
block id. -/
def c9_empty : FileManager := ⟨0, 5, fun b => (c9_node b).to_bytes, []⟩

/-- The state after reading blocks 1, 2, 3, 4 in sequence from c9_empty. -/
def c9_read4 : FileManager :=
  ((((c9_empty.read_node 1).1.read_node 2).1.read_node 3).1.read_node 4).1

/-- Agreement of two store states on everything except the cache: same root
id, same next block id, byte-identical file. -/
def storeEq (a b : FileManager) : Prop :=
  a.root_id = b.root_id ∧ a.next_block_id = b.next_block_id ∧ a.file = b.file

/-! ## Helper lemmas -/

theorem getD_lt_64 {l : List Nat} (h : ∀ x ∈ l, x < 2 ^ 64) (i : Nat) : l.getD i 0 < 2 ^ 64 := by
  by_cases hi : i < l.length
  · rw [List.getD_eq_getElem _ _ hi]
    exact h _ (List.getElem_mem hi)
  · rw [List.getD_eq_default _ _ (by omega)]
    norm_num

theorem readBe64_be64 (n : Nat) (h : n < 2 ^ 64) (r : List Nat) : readBe64 (be64 n ++ r) = n := by
  show ((((((n / 2 ^ 56 % 256 * 256 + n / 2 ^ 48 % 256) * 256 + n / 2 ^ 40 % 256) * 256 +
      n / 2 ^ 32 % 256) * 256 + n / 2 ^ 24 % 256) * 256 + n / 2 ^ 16 % 256) * 256 +
      n / 2 ^ 8 % 256) * 256 + n % 256 = n
  norm_num
  omega

theorem readSlot_flatMap :
    ∀ (slots r : List Nat) (i : Nat), i < slots.length → slots.getD i 0 < 2 ^ 64 →
      readSlot (slots.flatMap be64 ++ r) i = slots.getD i 0 := by
  intro slots
  induction slots with
  | nil => intro r i hi _; simp at hi
  | cons s t ih =>
    intro r i hi hb
    cases i with
    | zero =>
      show readBe64 (((s :: t).flatMap be64 ++ r).drop 0) = s
      rw [List.flatMap_cons, List.drop_zero, List.append_assoc]
      exact readBe64_be64 s (by simpa using hb) _
    | succ j =>
      have hstep : readSlot ((s :: t).flatMap be64 ++ r) (j + 1) =
          readSlot (t.flatMap be64 ++ r) j := by
        rw [List.flatMap_cons, List.append_assoc]
        rfl
      rw [hstep, ih r j (by simpa using hi) (by simpa using hb)]
      simp

theorem padSlots_length (m : Nat) (l : List Nat) : (padSlots m l).length = m := by
  simp [padSlots]

theorem padSlots_getD (m : Nat) (l : List Nat) (i : Nat) (h : i < m) :
    (padSlots m l).getD i 0 = l.getD i 0 := by
  rw [List.getD_eq_getElem _ _ (by simpa [padSlots_length] using h)]
  simp [padSlots]

theorem padSlots_eq (m : Nat) (l : List Nat) (h : l.length ≤ m) :
    padSlots m l = l ++ List.replicate (m - l.length) 0 := by
  apply List.ext_getElem
  · simp [padSlots_length]
    omega
  · intro i h1 h2
    simp only [padSlots, List.getElem_map, List.getElem_range]
    by_cases hi : i < l.length
    · rw [List.getD_eq_getElem _ _ hi, List.getElem_append_left hi]
    · rw [List.getD_eq_default _ _ (by omega), List.getElem_append_right (by omega)]
      simp

theorem padSlots_take (m : Nat) (l : List Nat) (h : l.length ≤ m) :
    (padSlots m l).take l.length = l := by
  rw [padSlots_eq m l h, List.take_left' rfl]

theorem scanIdx_stop (key : Nat) :
    ∀ l : List Nat, scanIdx key l < l.length → ¬ l.getD (scanIdx key l) 0 < key := by
  intro l
  induction l with
  | nil => intro h; simp [scanIdx] at h
  | cons k ks ih =>
    intro h
    by_cases hk : k < key
    · simp only [scanIdx, if_pos hk, List.getD_cons_succ]
      simp only [scanIdx, if_pos hk, List.length_cons] at h
      exact ih (by omega)
    · simp [scanIdx, hk]

/-! ## Claim C1: search never returns a value -/

/-- C1.  The claim says search returns the last-inserted value for every
inserted key.  In the source the post-scan test at line 221 repeats the scan
condition key gt keys[i], which is false at the scan exit, so the value
branch is dead code and search answers not-found for every key, on every
store, at every fuel.  The spec itself records this defect in section 9. -/
theorem c1_search_always_not_found (fuel : Nat) :
    ∀ (st : FileManager) (bid key : Nat), (BTree.search fuel st bid key).2 = none := by
  induction fuel with
  | zero => intro st bid key; rfl
  | succ n ih =>
    intro st bid key
    by_cases hb : bid = 0
    · simp [BTree.search, hb]
    · simp only [BTree.search, if_neg hb]
      split
      · next hcond =>
        exact absurd hcond.2 (scanIdx_stop key _ hcond.1)
      · split
        · rfl
        · exact ih _ _ _

/-! ## Claim C2: codec round-trip -/

/-- C2 (amended).  decode after encode is the identity on every valid
INTERNAL node: child list one longer than the key list, at most 19 keys,
values aligned with keys, every stored integer below 2 to the 64.  (For a
leaf the claim fails: from_bytes truncates the child slots to nkeys+1
unconditionally, so a leaf decodes with nkeys+1 zero children and is no
longer a leaf; see the counterexample.) -/
theorem c2_roundtrip_internal (n : BTreeNode)
    (hkl : n.keys.length ≤ MAX_KEYS)
    (hvl : n.values.length = n.keys.length)
    (hcl : n.children.length = n.keys.length + 1)
    (hbid : n.block_id < 2 ^ 64) (hpid : n.parent_id < 2 ^ 64)
    (hk : ∀ x ∈ n.keys, x < 2 ^ 64) (hv : ∀ x ∈ n.values, x < 2 ^ 64)
    (hc : ∀ x ∈ n.children, x < 2 ^ 64) :
    BTreeNode.from_bytes n.to_bytes = n := by
  obtain ⟨bid, pid, ks, vs, cs⟩ := n
  dsimp only at hkl hvl hcl hbid hpid hk hv hc
  simp only [MAX_KEYS, MAX_CHILDREN, T] at hkl hcl
  norm_num at hkl hcl
  have hts : BTreeNode.toSlots ⟨bid, pid, ks, vs, cs⟩ =
      bid :: pid :: ks.length :: (padSlots 19 ks ++ (padSlots 19 vs ++ padSlots 20 cs)) := by
    simp [BTreeNode.toSlots, MAX_KEYS, MAX_CHILDREN, T]
  have hlen : (BTreeNode.toSlots ⟨bid, pid, ks, vs, cs⟩).length = 61 := by
    simp [hts, padSlots_length]
  have hslot : ∀ i, i < 61 →
      (BTreeNode.toSlots ⟨bid, pid, ks, vs, cs⟩).getD i 0 < 2 ^ 64 →
      readSlot (BTreeNode.to_bytes ⟨bid, pid, ks, vs, cs⟩) i =
        (BTreeNode.toSlots ⟨bid, pid, ks, vs, cs⟩).getD i 0 := by
    intro i h1 h2
    exact readSlot_flatMap _ _ i (by omega) h2
  have hkey : ∀ i, i < 19 →
      (BTreeNode.toSlots ⟨bid, pid, ks, vs, cs⟩).getD (i + 3) 0 = ks.getD i 0 := by
    intro i hi
    rw [hts]
    simp only [List.getD_cons_succ]
    rw [List.getD_append _ _ _ _ (by simpa [padSlots_length] using hi)]
    exact padSlots_getD 19 ks i hi
  have hval : ∀ i, i < 19 →
      (BTreeNode.toSlots ⟨bid, pid, ks, vs, cs⟩).getD (i + 22) 0 = vs.getD i 0 := by
    intro i hi
    rw [hts]
    simp only [List.getD_cons_succ]
    rw [List.getD_append_right _ _ _ _ (by simp only [padSlots_length]; omega)]
    rw [padSlots_length]
    have : i + 19 - 19 = i := by omega
    rw [this, List.getD_append _ _ _ _ (by simpa [padSlots_length] using hi)]
    exact padSlots_getD 19 vs i hi
  have hch : ∀ i, i < 20 →
      (BTreeNode.toSlots ⟨bid, pid, ks, vs, cs⟩).getD (i + 41) 0 = cs.getD i 0 := by
    intro i hi
    rw [hts]
    simp only [List.getD_cons_succ]
    rw [List.getD_append_right _ _ _ _ (by simp only [padSlots_length]; omega)]
    rw [padSlots_length]
    have h38 : i + 38 - 19 = i + 19 := by omega
    rw [h38, List.getD_append_right _ _ _ _ (by simp only [padSlots_length]; omega)]
    rw [padSlots_length]
    have h19 : i + 19 - 19 = i := by omega
    rw [h19]
    exact padSlots_getD 20 cs i hi
  have hnk : readSlot (BTreeNode.to_bytes ⟨bid, pid, ks, vs, cs⟩) 2 = ks.length := by
    rw [hslot 2 (by omega) (by rw [hts]; simp only [List.getD_cons_succ, List.getD_cons_zero]; omega)]
    rw [hts]
    rfl
  have h0 : readSlot (BTreeNode.to_bytes ⟨bid, pid, ks, vs, cs⟩) 0 = bid := by
    rw [hslot 0 (by omega) (by rw [hts]; simpa using hbid)]
    rw [hts]
    rfl
  have h1 : readSlot (BTreeNode.to_bytes ⟨bid, pid, ks, vs, cs⟩) 1 = pid := by
    rw [hslot 1 (by omega) (by rw [hts]; simpa using hpid)]
    rw [hts]
    rfl
  show BTreeNode.mk _ _ _ _ _ = _
  simp only [BTreeNode.mk.injEq]
  refine ⟨h0, h1, ?_, ?_, ?_⟩
  · rw [hnk]
    have hmap : (List.range MAX_KEYS).map
        (fun i => readSlot (BTreeNode.to_bytes ⟨bid, pid, ks, vs, cs⟩) (i + 3)) =
        padSlots 19 ks := by
      simp only [MAX_KEYS, T]
      norm_num
      apply List.map_congr_left
      intro i hi
      rw [List.mem_range] at hi
      rw [hslot (i + 3) (by omega) (by rw [hkey i hi]; exact getD_lt_64 hk i)]
      exact hkey i hi
    rw [hmap]
    exact padSlots_take 19 ks hkl
  · rw [hnk]
    have hmap : (List.range MAX_KEYS).map
        (fun i => readSlot (BTreeNode.to_bytes ⟨bid, pid, ks, vs, cs⟩) (i + 22)) =
        padSlots 19 vs := by
      simp only [MAX_KEYS, T]
      norm_num
      apply List.map_congr_left
      intro i hi
      rw [List.mem_range] at hi
      rw [hslot (i + 22) (by omega) (by rw [hval i hi]; exact getD_lt_64 hv i)]
      exact hval i hi
    rw [hmap, ← hvl]
    exact padSlots_take 19 vs (by omega)
  · rw [hnk]
    have hmap : (List.range MAX_CHILDREN).map
        (fun i => readSlot (BTreeNode.to_bytes ⟨bid, pid, ks, vs, cs⟩) (i + 41)) =
        padSlots 20 cs := by
      simp only [MAX_CHILDREN, T]
      norm_num
      apply List.map_congr_left
      intro i hi
      rw [List.mem_range] at hi
      rw [hslot (i + 41) (by omega) (by rw [hch i hi]; exact getD_lt_64 hc i)]
      exact hch i hi
    rw [hmap, ← hcl]
    exact padSlots_take 20 cs (by omega)

/-- Witness for C2: the amended round-trip at a concrete internal node. -/
theorem c2_roundtrip_internal_witness :
    BTreeNode.from_bytes (BTreeNode.to_bytes ⟨1, 0, [5], [50], [2, 3]⟩) =
      ⟨1, 0, [5], [50], [2, 3]⟩ :=
  c2_roundtrip_internal ⟨1, 0, [5], [50], [2, 3]⟩ (by decide) (by decide) (by decide)
    (by norm_num) (by norm_num) (by decide) (by decide) (by decide)

/-- Counterexample for C2 as stated: a valid leaf does not round-trip; its
decoded child list is [0, 0] rather than [], so it is no longer a leaf. -/
theorem c2_leaf_roundtrip_fails :
    BTreeNode.from_bytes (BTreeNode.to_bytes ⟨1, 0, [5], [50], []⟩) ≠ ⟨1, 0, [5], [50], []⟩ ∧
      (BTreeNode.from_bytes (BTreeNode.to_bytes ⟨1, 0, [5], [50], []⟩)).children = [0, 0] ∧
      (⟨1, 0, [5], [50], []⟩ : BTreeNode).is_leaf = true ∧
      (BTreeNode.from_bytes (BTreeNode.to_bytes ⟨1, 0, [5], [50], []⟩)).is_leaf = false := by
  refine ⟨by decide, by decide, by decide, by decide⟩

/-! ## Claim C3: split_child -/

/-- C3.  Evaluation of split_child at a parent whose child 0 is the full
leaf with keys 1..19: the median key 10 and its value 100 are promoted into
the parent at position 0 and the new block id 3 is inserted at child
position 1 (this half matches the claim), but the newly allocated right
node at block 3 receives the FIRST T = 10 keys 1..10 (including the median,
duplicated) instead of the last T-1 = 9 keys 11..19, the left node keeps
1..9, and the keys 11..19 are lost from every node. -/
theorem c3_split_child_wrong_slices :
    (BTree.split_child c3_state c3_parent 0).2 = ⟨2, 0, [10], [100], [1, 3]⟩ ∧
      (BTreeNode.from_bytes ((BTree.split_child c3_state c3_parent 0).1.file 3)).keys =
        [1, 2, 3, 4, 5, 6, 7, 8, 9, 10] ∧
      (BTreeNode.from_bytes ((BTree.split_child c3_state c3_parent 0).1.file 1)).keys =
        [1, 2, 3, 4, 5, 6, 7, 8, 9] := by
  refine ⟨by decide, by decide, by decide⟩

/-! ## Claim C4: collect after insertions -/

/-- C4.  The very first insertion into a freshly created index aborts (the
root-id assignment of src/main.py line 250 is not executable), leaving
root_block_id at 0, so collect returns the empty list instead of the
inserted pair. -/
theorem c4_collect_misses_inserted_pair :
    (BTree.insert 10 createIndex 5 50).2.isSome = true ∧
      (BTree.insert 10 createIndex 5 50).1.root_id = 0 ∧
      (BTree.collect 10 (BTree.insert 10 createIndex 5 50).1).2 = [] := by
  refine ⟨by decide, by decide, by decide⟩

/-! ## Claim C5: insert into an empty tree -/

/-- C5.  Insert of (7, 70) into a freshly created index: the block is
allocated and the one-pair leaf is written to block 1, but the operation
then aborts at line 250, so root_block_id stays 0 and the header persisted
on disk still carries root 0 (with the bumped next id 2); the new leaf
never becomes the root. -/
theorem c5_empty_insert_aborts :
    (BTree.insert 10 createIndex 7 70).2.isSome = true ∧
      (BTreeNode.from_bytes ((BTree.insert 10 createIndex 7 70).1.file 1)).keys = [7] ∧
      (BTreeNode.from_bytes ((BTree.insert 10 createIndex 7 70).1.file 1)).values = [70] ∧
      (BTree.insert 10 createIndex 7 70).1.root_id = 0 ∧
      (BTree.insert 10 createIndex 7 70).1.file 0 = headerBytes 0 2 := by
  refine ⟨by decide, by decide, by decide, by decide, by decide⟩

/-! ## Claim C6: opening an existing index -/

/-- C6.  Opening a file with a wrong signature fails with the format error
and writes nothing (openFile never touches the file), as the claim says;
but opening a file whose magic DOES match also fails, with the TypeError
raised by the three-argument struct.unpack call of line 59, so the stored
root and next ids are never loaded. -/
theorem c6_open_existing_diverges :
    FileManager.openFile createIndex.file false =
        Except.error "TypeError: unpack expected 2 arguments, got 3" ∧
      FileManager.openFile (fun _ => []) false = Except.error "Invalid index file format" :=
  ⟨rfl, rfl⟩

/-! ## Claim C7: duplicate keys -/

/-- Counterexample for C7 as stated: inserting key 5 a second time into the
one-leaf index does perform the blind insert (the leaf becomes [5, 5] with
no error), but search then returns NEITHER of the two associated values —
it answers not-found — contradicting the final clause of the claim. -/
theorem c7_search_returns_neither_value :
    (BTreeNode.from_bytes (c7_after.file 1)).keys = [5, 5] ∧
      ¬((BTree.search 10 c7_after c7_after.root_id 5).2 = some 50 ∨
        (BTree.search 10 c7_after c7_after.root_id 5).2 = some 99) := by
  refine ⟨by decide, by decide⟩

/-- C7 (amended).  Inserting the key 5 a second time into the one-leaf tree
raises no duplicate-key error, the leaf afterwards holds the key twice with
both values, and search subsequently returns not-found for that key (the
search equality defect hides both values). -/
theorem c7_duplicate_insert_blind :
    (BTree.insert 10 c7_state 5 99).2 = none ∧
      (BTreeNode.from_bytes (c7_after.file 1)).keys = [5, 5] ∧
      (BTreeNode.from_bytes (c7_after.file 1)).values = [50, 99] ∧
      (BTree.search 10 c7_after c7_after.root_id 5).2 = none := by
  refine ⟨by decide, by decide, by decide, by decide⟩

/-! ## Claim C8: allocate_block -/

/-- C8.  allocate_block returns the current next_block_id, increments it by
one, persists the updated header (block 0 of the file holds the header
bytes with the unchanged root id and the new next id) before returning, and
successive calls return strictly increasing ids. -/
theorem c8_allocate_block (st : FileManager) :
    st.allocate_block.1 = st.next_block_id ∧
      st.allocate_block.2.next_block_id = st.next_block_id + 1 ∧
      st.allocate_block.2.root_id = st.root_id ∧
      st.allocate_block.2.file 0 = headerBytes st.root_id (st.next_block_id + 1) ∧
      st.allocate_block.1 < st.allocate_block.2.allocate_block.1 := by
  refine ⟨rfl, rfl, rfl, by simp [FileManager.allocate_block, FileManager.sync_header],
    by simp [FileManager.allocate_block, FileManager.sync_header]⟩

/-! ## Claim C9: the LRU cache -/

theorem find_filter_length_lt {bid : Nat} :
    ∀ (l : List (Nat × BTreeNode)) (p : Nat × BTreeNode),
      l.find? (fun q => q.1 == bid) = some p →
      (l.filter (fun q => q.1 != bid)).length < l.length := by
  intro l
  induction l with
  | nil => intro p h; simp at h
  | cons x t ih =>
    intro p h
    by_cases hx : (x.1 == bid) = true
    · rw [List.filter_cons_of_neg (by simpa using hx)]
      have := List.length_filter_le (fun q => q.1 != bid) t
      simp only [List.length_cons]
      omega
    · rw [List.find?_cons_of_neg _ (by simpa using hx)] at h
      rw [List.filter_cons_of_pos (by simpa using hx)]
      have := ih p h
      simp only [List.length_cons]
      omega

/-- C9.  The cache bound: read_node and write_node keep the cache at no
more than CACHE_SIZE = 3 entries; a cache hit moves the entry to the most
recently used end; and reading 4 distinct blocks in sequence from a cold
cache evicts the first-read block (it is no longer found, so a fifth read
of it decodes from the file again). -/
theorem c9_cache_lru :
    (∀ (st : FileManager) (bid : Nat), st.cache.length ≤ CACHE_SIZE →
      (st.read_node bid).1.cache.length ≤ CACHE_SIZE) ∧
      (∀ (st : FileManager) (node : BTreeNode), st.cache.length ≤ CACHE_SIZE →
        (st.write_node node).cache.length ≤ CACHE_SIZE) ∧
      (c9_full.read_node 1).1.cache = [(2, c9_node 2), (3, c9_node 3), (1, c9_node 1)] ∧
      c9_read4.cache.map Prod.fst = [2, 3, 4] ∧
      c9_read4.cache.find? (fun p => p.1 == 1) = none := by
  refine ⟨?_, ?_, by decide, by decide, by decide⟩
  · intro st bid h
    simp only [CACHE_SIZE] at h
    rcases hf : st.cache.find? (fun p => p.1 == bid) with _ | p
    · simp only [FileManager.read_node, hf, CACHE_SIZE]
      split
      · next hlong =>
        simp only [List.length_append, List.length_cons, List.length_nil] at hlong
        simp only [List.length_tail, List.length_append, List.length_cons, List.length_nil]
        omega
      · next hshort =>
        simp only [List.length_append, List.length_cons, List.length_nil] at hshort ⊢
        omega
    · simp only [FileManager.read_node, hf, CACHE_SIZE]
      have := find_filter_length_lt st.cache p hf
      simp only [List.length_append, List.length_cons, List.length_nil]
      omega
  · intro st node h
    simp only [CACHE_SIZE] at h
    simp only [FileManager.write_node, CACHE_SIZE]
    by_cases ha : st.cache.any (fun p => p.1 == node.block_id) = true
    · rw [if_pos ha]
      split
      · next hlong =>
        simp only [List.length_tail, List.length_map] at hlong ⊢
        omega
      · next hshort =>
        simp only [List.length_map] at hshort ⊢
        omega
    · rw [if_neg ha]
      split
      · next hlong =>
        simp only [List.length_append, List.length_cons, List.length_nil] at hlong
        simp only [List.length_tail, List.length_append, List.length_cons, List.length_nil]
        omega
      · next hshort =>
        simp only [List.length_append, List.length_cons, List.length_nil] at hshort ⊢
        omega

/-- Witness for C9: the cache-bound halves applied at a concrete full-cache
state. -/
theorem c9_cache_lru_witness :
    (c9_full.read_node 4).1.cache.length ≤ CACHE_SIZE ∧
      (c9_full.write_node (c9_node 4)).cache.length ≤ CACHE_SIZE :=
  ⟨c9_cache_lru.1 c9_full 4 (by decide), c9_cache_lru.2.1 c9_full (c9_node 4) (by decide)⟩

/-! ## Claim C10: search and collect are read-only -/

theorem storeEq_refl (a : FileManager) : storeEq a a := ⟨rfl, rfl, rfl⟩

theorem storeEq_trans {a b c : FileManager} (h1 : storeEq a b) (h2 : storeEq b c) :
    storeEq a c :=
  ⟨h1.1.trans h2.1, h1.2.1.trans h2.2.1, h1.2.2.trans h2.2.2⟩

theorem read_node_storeEq (st : FileManager) (bid : Nat) : storeEq (st.read_node bid).1 st := by
  rcases hf : st.cache.find? (fun p => p.1 == bid) with _ | p <;>
    simp only [FileManager.read_node, hf] <;> exact ⟨rfl, rfl, rfl⟩

theorem search_storeEq (fuel : Nat) :
    ∀ (st : FileManager) (bid key : Nat), storeEq (BTree.search fuel st bid key).1 st := by
  induction fuel with
  | zero => intro st bid key; exact storeEq_refl st
  | succ n ih =>
    intro st bid key
    by_cases hb : bid = 0
    · simp only [BTree.search, if_pos hb]
      exact storeEq_refl st
    · simp only [BTree.search, if_neg hb]
      split
      · exact read_node_storeEq st bid
      · split
        · exact read_node_storeEq st bid
        · exact storeEq_trans (ih _ _ _) (read_node_storeEq st bid)

theorem foldl_storeEq
    (f : FileManager × List (Nat × Nat) → Nat → FileManager × List (Nat × Nat))
    (hf : ∀ a i, storeEq (f a i).1 a.1) :
    ∀ (l : List Nat) (acc : FileManager × List (Nat × Nat)),
      storeEq ((l.foldl f acc).1) acc.1 := by
  intro l
  induction l with
  | nil => intro acc; exact storeEq_refl _
  | cons x t ih => intro acc; exact storeEq_trans (ih (f acc x)) (hf acc x)

theorem traverse_storeEq (fuel : Nat) :
    ∀ (st : FileManager) (bid : Nat), storeEq (BTree.traverse fuel st bid).1 st := by
  induction fuel with
  | zero => intro st bid; exact storeEq_refl st
  | succ n ih =>
    intro st bid
    by_cases hb : bid = 0
    · simp only [BTree.traverse, if_pos hb]
      exact storeEq_refl st
    · simp only [BTree.traverse, if_neg hb]
      split
      · refine storeEq_trans (foldl_storeEq _ ?_ _ _) (read_node_storeEq st bid)
        intro a i
        exact storeEq_refl _
      · refine storeEq_trans
          (storeEq_trans (ih _ _) (foldl_storeEq _ ?_ _ _)) (read_node_storeEq st bid)
        intro a i
        exact ih _ _

/-- C10.  search and collect leave root_id, next_block_id and every file
block unchanged: they never write a node, never sync the header and never
allocate a block; only the cache may differ. -/
theorem c10_search_collect_read_only :
    (∀ (fuel : Nat) (st : FileManager) (bid key : Nat),
      (BTree.search fuel st bid key).1.root_id = st.root_id ∧
        (BTree.search fuel st bid key).1.next_block_id = st.next_block_id ∧
        (BTree.search fuel st bid key).1.file = st.file) ∧
      (∀ (fuel : Nat) (st : FileManager),
        (BTree.collect fuel st).1.root_id = st.root_id ∧
          (BTree.collect fuel st).1.next_block_id = st.next_block_id ∧
          (BTree.collect fuel st).1.file = st.file) :=
  ⟨fun fuel st bid key => search_storeEq fuel st bid key,
    fun fuel st => traverse_storeEq fuel st st.root_id⟩
